import Mathlib

/-!
Shallow embedding of the Stock-Platform metrics and forecasting engine
(backend/app/services/data_cleaner.py, backend/app/services/metrics_calculator.py,
backend/app/ml/feature_engineer.py, backend/app/ml/model_trainer.py,
backend/app/ml/predictor.py), together with theorems settling the frozen
claims about the natural-language specification.

Modelling conventions:
- pandas DataFrames become Lean lists of row structures or lists of column values;
  a possibly-NaN cell is an `Option`.
- float arithmetic is modelled by exact arithmetic: `ℚ` where only ring operations
  and comparisons occur, `ℝ` where a square root is taken (standard deviations,
  the Brownian confidence scaling).  `round(x, 2)` becomes
  `(round (x * 100)) / 100`; the half-to-even tie behaviour of numpy differs from
  Mathlib `round` only on exact ties, which none of the claims depend on.
- `pandas.sort_values('date')` is modelled as a stable sort (`List.insertionSort`);
  rows are permuted into ascending-date order, equal dates keeping input order.
- dates are day ordinals `d : ℕ` with weekday `d % 7` (0 = Monday .. 6 = Sunday),
  matching Python `date.weekday()` where Saturday and Sunday are the values ≥ 5.
-/

/-! ## Generic numeric helpers -/

/-- Python `round(x, 2)` on exact rationals. -/
def round2 (x : ℚ) : ℚ := ((round (x * 100) : ℤ) : ℚ) / 100

/-- Python `round(x, 2)` on reals (used where square roots occur). -/
noncomputable def round2R (x : ℝ) : ℝ := ((round (x * 100) : ℤ) : ℝ) / 100

/-- Mean of a list of rationals (empty list: division by zero gives 0,
matching the fact that the code never takes a mean of an empty window). -/
def listMeanQ (l : List ℚ) : ℚ := l.sum / (l.length : ℚ)

/-- Maximum of a nonempty list of rationals (0 on the empty list, never used there). -/
def listMaxQ : List ℚ → ℚ
  | [] => 0
  | x :: xs => xs.foldl max x

/-- Minimum of a nonempty list of rationals (0 on the empty list, never used there). -/
def listMinQ : List ℚ → ℚ
  | [] => 0
  | x :: xs => xs.foldl min x

/-- Sample variance with `ddof = 1` (pandas default), as used by
`Series.std()` and `rolling(...).std()`. -/
noncomputable def sampleVarR (l : List ℝ) : ℝ :=
  ((l.map (fun x => (x - l.sum / (l.length : ℝ)) ^ 2)).sum) / ((l.length : ℝ) - 1)

/-- Sample standard deviation with `ddof = 1` (pandas default). -/
noncomputable def sampleStdR (l : List ℝ) : ℝ := Real.sqrt (sampleVarR l)

/-- The exact-real value of a rational cell (float cells are modelled by ℚ,
statistics taking square roots live in ℝ). -/
def ratToReal (q : ℚ) : ℝ := (q : ℝ)

/-! ## Series Cleaner (`backend/app/services/data_cleaner.py`)

A raw row from the fetcher: `date` and `symbol` are always present, the five
essential OHLCV cells may be missing (NaN). -/

structure RawRow where
  symbol : String
  date : ℕ
  open_ : Option ℚ
  high : Option ℚ
  low : Option ℚ
  close : Option ℚ
  volume : Option ℚ
  deriving DecidableEq, Repr

/-- The `(date, symbol)` deduplication key of `drop_duplicates(subset=['date', 'symbol'])`. -/
def rowKey (r : RawRow) : ℕ × String := (r.date, r.symbol)

/-- A row with none of the five essential cells missing. -/
def hasEssential (r : RawRow) : Bool :=
  r.open_.isSome && r.high.isSome && r.low.isSome && r.close.isSome && r.volume.isSome

/-- Step 1 of `clean_stock_data`: `df.dropna(subset=[col])` applied successively
to each of open, high, low, close, volume. -/
def dropMissing (df : List RawRow) : List RawRow :=
  ((((df.filter (fun r => r.open_.isSome)).filter
      (fun r => r.high.isSome)).filter
      (fun r => r.low.isSome)).filter
      (fun r => r.close.isSome)).filter
      (fun r => r.volume.isSome)

/-- Step 2: `df.drop_duplicates(subset=['date', 'symbol'], keep='last')` —
a row is kept exactly when no later row has the same key. -/
def dropDuplicatesKeepLast : List RawRow → List RawRow
  | [] => []
  | r :: rest =>
    if rest.any (fun s => decide (rowKey s = rowKey r)) then dropDuplicatesKeepLast rest
    else r :: dropDuplicatesKeepLast rest

/-- Ascending-date order used by step 3, `df.sort_values('date')`. -/
def dateLE (a b : RawRow) : Prop := a.date ≤ b.date

instance : DecidableRel dateLE := fun a b => Nat.decLe a.date b.date

instance : IsTotal RawRow dateLE := ⟨fun a b => Nat.le_total a.date b.date⟩

instance : IsTrans RawRow dateLE := ⟨fun _ _ _ h h2 => Nat.le_trans h h2⟩

/-- Step 3: `df.sort_values('date')`, modelled as a stable sort on the date. -/
def sortByDate (df : List RawRow) : List RawRow := List.insertionSort dateLE df

/-- The row predicate of step 4, `df['volume'] > 0` (False on NaN, as in pandas). -/
def volPos (r : RawRow) : Bool :=
  match r.volume with
  | some v => decide (0 < v)
  | none => false

/-- The row predicate of step 5, `df['high'] >= df['low']` (False on NaN). -/
def highGeLow (r : RawRow) : Bool :=
  match r.high, r.low with
  | some h, some l => decide (l ≤ h)
  | _, _ => false

/-- Step 4: `df[df['volume'] > 0]`. -/
def filterVolume (df : List RawRow) : List RawRow := df.filter volPos

/-- Step 5: `df[df['high'] >= df['low']]`. -/
def filterHighLow (df : List RawRow) : List RawRow := df.filter highGeLow

/-- Step 6: `df[col] = df[col].ffill()` for each of the four price columns,
carrying the last seen (filled) value of each column downward. -/
def ffillRows : Option ℚ → Option ℚ → Option ℚ → Option ℚ → List RawRow → List RawRow
  | _, _, _, _, [] => []
  | o, h, l, c, r :: rest =>
    let ro := match r.open_ with | some v => some v | none => o
    let rh := match r.high with | some v => some v | none => h
    let rl := match r.low with | some v => some v | none => l
    let rc := match r.close with | some v => some v | none => c
    { r with open_ := ro, high := rh, low := rl, close := rc } ::
      ffillRows ro rh rl rc rest

/-- `clean_stock_data` (data_cleaner.py lines 29-88): drop rows with missing
essential cells, deduplicate `(date, symbol)` keys keeping the last occurrence,
sort ascending by date, drop non-positive volume, drop rows with high < low,
forward-fill residual price gaps. -/
def clean_stock_data (df : List RawRow) : List RawRow :=
  ffillRows none none none none
    (filterHighLow (filterVolume (sortByDate (dropDuplicatesKeepLast (dropMissing df)))))

/-! ## Metrics Calculator (`backend/app/services/metrics_calculator.py`)

A cleaned row: all cells present. -/

structure CleanRow where
  symbol : String
  date : ℕ
  open_ : ℚ
  high : ℚ
  low : ℚ
  close : ℚ
  volume : ℚ
  deriving DecidableEq, Repr

/-- The trailing window of width `w` ending at index `i` — exactly the rows a
pandas `rolling(window=w)` aggregation sees at position `i`. -/
def windowSlice {α : Type} (xs : List α) (w i : ℕ) : List α :=
  (xs.take (i + 1)).drop (i + 1 - w)

/-- `series.rolling(window=w, min_periods=m).agg(f)`: at index `i` the trailing
window holds `min w (i+1)` observations; below `m` of them the cell is NaN. -/
def rollingApply {α β : Type} (f : List α → β) (w m : ℕ) (xs : List α) : List (Option β) :=
  (List.range xs.length).map
    (fun i => if m ≤ min w (i + 1) then some (f (windowSlice xs w i)) else none)

/-- `calculate_daily_return`: `((close - open) / open * 100).round(2)`. -/
def daily_return_col (ps : List CleanRow) : List ℚ :=
  ps.map (fun r => round2 ((r.close - r.open_) / r.open_ * 100))

/-- `calculate_moving_averages`: `close.rolling(window=w, min_periods=1).mean().round(2)`
(with `w` = 7 and 20); with one minimum period the cell is never NaN. -/
def ma_col (w : ℕ) (ps : List CleanRow) : List ℚ :=
  (rollingApply listMeanQ w 1 (ps.map (fun r => r.close))).map
    (fun o => round2 (o.getD 0))

/-- `calculate_52_week_high_low`, high half: the rowwise max of open, high, close,
then `rolling(window=252, min_periods=1).max().round(2)`. -/
def high_52w_col (ps : List CleanRow) : List ℚ :=
  (rollingApply listMaxQ 252 1 (ps.map (fun r => max r.open_ (max r.high r.close)))).map
    (fun o => round2 (o.getD 0))

/-- `calculate_52_week_high_low`, low half: the rowwise min of open, low, close,
then `rolling(window=252, min_periods=1).min().round(2)`. -/
def low_52w_col (ps : List CleanRow) : List ℚ :=
  (rollingApply listMinQ 252 1 (ps.map (fun r => min r.open_ (min r.low r.close)))).map
    (fun o => round2 (o.getD 0))

/-- `calculate_volatility`: trailing 30-period sample standard deviation of
`daily_return` with `min_periods=5`, rescaled by `/ 5.0 * 100`, clipped to
`[0, 100]`, rounded to 2 decimals; NaN below 5 observations. -/
noncomputable def volatility_col (ps : List CleanRow) : List (Option ℝ) :=
  (rollingApply sampleStdR 30 5 ((daily_return_col ps).map ratToReal)).map
    (Option.map (fun s => round2R (min (max (s / 5 * 100) 0) 100)))

/-- `calculate_momentum`: `close.pct_change(periods=20).mul(100).round(2)` —
NaN for the first 20 rows. -/
def momentum_col (ps : List CleanRow) : List (Option ℚ) :=
  (List.range ps.length).map (fun i =>
    if 20 ≤ i then
      some (round2 ((((ps.take (i + 1)).map (fun r => r.close)).getD i 0 -
          ((ps.take (i + 1)).map (fun r => r.close)).getD (i - 20) 0) /
          ((ps.take (i + 1)).map (fun r => r.close)).getD (i - 20) 0 * 100))
    else none)

/-- `calculate_trend_strength`: `((close - ma_20) / ma_20 * 100).round(2)`,
computed from the already-rounded 20-period moving-average column. -/
def trend_strength_col (ps : List CleanRow) : List ℚ :=
  (List.range ps.length).map (fun i =>
    round2 ((((ps.take (i + 1)).map (fun r => r.close)).getD i 0 -
        (ma_col 20 ps).getD i 0) / (ma_col 20 ps).getD i 0 * 100))

/-- The metrics-annotated frame produced by `calculate_all_metrics`. -/
structure MetricsFrame where
  rows : List CleanRow
  daily_return : List ℚ
  ma_7 : List ℚ
  ma_20 : List ℚ
  high_52w : List ℚ
  low_52w : List ℚ
  volatility : List ℝ
  momentum : List ℚ
  trend_strength : List ℚ

/-- `calculate_all_metrics` (metrics_calculator.py lines 189-220): the seven
derived columns in order, then `fillna(0)` on volatility, momentum and
trend strength (the latter two columns are the only ones that can hold NaN;
`trend_strength` never does since `ma_20` has `min_periods=1`). -/
noncomputable def calculate_all_metrics (ps : List CleanRow) : MetricsFrame :=
  { rows := ps
    daily_return := daily_return_col ps
    ma_7 := ma_col 7 ps
    ma_20 := ma_col 20 ps
    high_52w := high_52w_col ps
    low_52w := low_52w_col ps
    volatility := (volatility_col ps).map (fun o => o.getD 0)
    momentum := (momentum_col ps).map (fun o => o.getD 0)
    trend_strength := trend_strength_col ps }

/-! ## Model Trainer (`backend/app/ml/model_trainer.py`)

The trainer's observable behaviour for the claims is its control flow:
row-count thresholds, the result record, and the persistence side effect
(which we log as the list of saved model keys).  The XGBoost fit itself and
the evaluation metrics are opaque learned artifacts and are not modelled.
`prepare_features` (feature_engineer.py) only ever adds columns — it drops no
row — so for the trainer it is an arbitrary row-count-preserving map, passed
as the `prep` parameter; the claims quantify over it. -/

/-- `prepare_training_data` (feature_engineer.py lines 209-235) with the default
`target_days = 1`: the target of a row is the next row's close
(`df['close'].shift(-1)`), and rows without a target — exactly the final row,
since `prepare_features` has already replaced every NaN — are dropped.
The feature-frame rows here are `CleanRow`s: the engineered columns beyond them
are model inputs only and play no role in any claim. -/
def prepare_training_data (dfF : List CleanRow) : List (CleanRow × ℚ) :=
  dfF.zip (dfF.tail.map (fun r => r.close))

/-- Result of `train_model`: the two distinct failure dictionaries
(`'Insufficient data for training'` / `'Insufficient samples after feature
preparation'`, both carrying the symbol), or the success record with its
sample counts. -/
inductive TrainResult where
  | insufficientData (symbol : String)
  | insufficientSamples (symbol : String)
  | success (symbol : String) (samples trainSamples testSamples : ℕ)
  deriving DecidableEq, Repr

/-- `train_model` (model_trainer.py lines 54-128) with `test_size = 0.2`.
Returns the training result together with the persistence log: the list of
symbols for which `joblib.dump` stored a model during the call.
`split_idx = int(len(X) * (1 - test_size))` is `⌊0.8·n⌋ = (8·n)/10`. -/
def train_model (prep : List CleanRow → List CleanRow)
    (df : List CleanRow) (symbol : String) : TrainResult × List String :=
  if df.length < 50 then (.insufficientData symbol, [])
  else
    let Xy := prepare_training_data (prep df)
    if Xy.length < 30 then (.insufficientSamples symbol, [])
    else
      let splitIdx := 8 * Xy.length / 10
      (.success symbol Xy.length splitIdx (Xy.length - splitIdx), [symbol])

/-! ## Predictor (`backend/app/ml/predictor.py`)

A metrics-annotated row as the predictor reads it: the only columns
`predict_next_prices` consumes from its input frame are `close`, `date` and
`daily_return`; `prepare_features` passes all three through unchanged while
adding engineered columns, so feature rows are again `PredRow`s and the
feature pipeline is a parameter `prep` the claims quantify over.

The trained model enters only through the value of `model.predict` on
`current_features` — a feature snapshot the loop never reassigns.  We model
the outcome of the `i`-th `model.predict` invocation as `pc i : Option ℝ`
(`none` = the call raised, the per-step `except` path); a deterministic model
is `fun _ => some p`, every call seeing the identical feature vector. -/

structure PredRow where
  close : ℝ
  daily_return : ℝ
  date : ℕ

/-- The rollout loop of `predict_next_prices` (predictor.py lines 85-106),
recursing on the remaining steps: at step `i` with tracked price `cp`, a
successful model call `p` appends `round(p, 2)`, `round(max(0, p - 1.96·cf), 2)`
and `round(p + 1.96·cf, 2)` where `cf = sqrt(i) · (daily_std / 100) · cp`,
then continues at step `i + 1` with `cp = p`; a raising call breaks, keeping
what was accumulated. -/
noncomputable def rolloutGo (pc : ℕ → Option ℝ) (dailyStd : ℝ) :
    ℕ → ℕ → ℝ → List ℝ × List ℝ × List ℝ
  | 0, _, _ => ([], [], [])
  | fuel + 1, i, cp =>
    match pc i with
    | none => ([], [], [])
    | some p =>
      (round2R p :: (rolloutGo pc dailyStd fuel (i + 1) p).1,
       round2R (max 0 (p - 1.96 * (Real.sqrt i * (dailyStd / 100) * cp))) ::
         (rolloutGo pc dailyStd fuel (i + 1) p).2.1,
       round2R (p + 1.96 * (Real.sqrt i * (dailyStd / 100) * cp)) ::
         (rolloutGo pc dailyStd fuel (i + 1) p).2.2)

/-- The full rollout `for i in range(1, days + 1)`: steps 1..days seeded with
the last close as the tracked price. -/
noncomputable def rollout (pc : ℕ → Option ℝ) (dailyStd lastClose : ℝ) (days : ℕ) :
    List ℝ × List ℝ × List ℝ :=
  rolloutGo pc dailyStd days 1 lastClose

/-- The `while current_date.weekday() >= 5` skip: from a candidate date land on
the next weekday (Saturday jumps 2, Sunday jumps 1). -/
def skipWeekend (d : ℕ) : ℕ :=
  if d % 7 = 5 then d + 2 else if d % 7 = 6 then d + 1 else d

/-- The date loop of `predict_next_prices` (lines 112-120): exactly `days`
iterations, each advancing one calendar day then skipping the weekend —
independent of how many predictions the rollout produced. -/
def tradingDates (cur : ℕ) : ℕ → List ℕ
  | 0 => []
  | n + 1 =>
    let nxt := skipWeekend (cur + 1)
    nxt :: tradingDates nxt n

/-- Minimum of a nonempty list of reals, `min(predictions)` (0 on `[]`, unused). -/
def listMinD : List ℝ → ℝ
  | [] => 0
  | x :: xs => xs.foldl min x

/-- Maximum of a nonempty list of reals, `max(predictions)` (0 on `[]`, unused). -/
def listMaxD : List ℝ → ℝ
  | [] => 0
  | x :: xs => xs.foldl max x

/-- The successful return dictionary of `predict_next_prices`. -/
structure Forecast where
  symbol : String
  current_price : ℝ
  prediction_days : ℕ
  predictions : List ℝ
  dates : List ℕ
  confidence_lower : List ℝ
  confidence_upper : List ℝ
  expected_price : ℝ
  expected_return : ℝ
  trend : String
  min_prediction : ℝ
  max_prediction : ℝ

/-- A `predict_next_prices` outcome: an `'error'` dictionary or the forecast. -/
inductive PredictResult where
  | err (msg : String)
  | ok (f : Forecast)

/-- Whether the result is a forecast rather than an error dictionary. -/
def PredictResult.isOk : PredictResult → Bool
  | .err _ => false
  | .ok _ => true

/-- The forecast payload of a successful result (junk defaults on an error). -/
def PredictResult.getOk : PredictResult → Forecast
  | .err _ =>
    { symbol := "", current_price := 0, prediction_days := 0, predictions := [],
      dates := [], confidence_lower := [], confidence_upper := [],
      expected_price := 0, expected_return := 0, trend := "",
      min_prediction := 0, max_prediction := 0 }
  | .ok f => f

/-- The successful return dictionary assembled at the end of
`predict_next_prices` (lines 122-150): summary fields derived from the stored
(rounded) predictions, the tracked last close and the date loop. -/
noncomputable def forecastOf (symbol : String) (days : ℕ) (lastClose : ℝ)
    (lastDate : ℕ) (rres : List ℝ × List ℝ × List ℝ) : Forecast :=
  { symbol := symbol
    current_price := round2R lastClose
    prediction_days := days
    predictions := rres.1
    dates := tradingDates lastDate days
    confidence_lower := rres.2.1
    confidence_upper := rres.2.2
    expected_price := rres.1.getLastD 0
    expected_return := round2R ((rres.1.getLastD 0 - lastClose) / lastClose * 100)
    trend :=
      if (rres.1.getLastD 0 - lastClose) / lastClose * 100 > 2 then "bullish"
      else if (rres.1.getLastD 0 - lastClose) / lastClose * 100 < -2 then "bearish"
      else "neutral"
    min_prediction := listMinD rres.1
    max_prediction := listMaxD rres.1 }

/-- `predict_next_prices` (predictor.py lines 33-150).  `modelLoaded` is
whether `load_model(symbol)` found a trained artifact; `pc` is the model-call
oracle described above; `prep` is the feature pipeline (row-preserving in the
real code).  The last close and date are read from the engineered frame's last
row, and `daily_std` is the sample standard deviation of that frame's
`daily_return` column, which it always has. -/
noncomputable def predict_next_prices (modelLoaded : Bool) (pc : ℕ → Option ℝ)
    (prep : List PredRow → List PredRow) (df : List PredRow)
    (symbol : String) (days : ℕ) : PredictResult :=
  if modelLoaded = false then .err ("No trained model found for " ++ symbol)
  else if df.isEmpty then .err "No data available for prediction"
  else if (prep df).isEmpty then .err "Feature preparation failed"
  else if (rollout pc (sampleStdR ((prep df).map (fun r => r.daily_return)))
      (((prep df).map (fun r => r.close)).getLastD 0) days).1.isEmpty then
    .err "Prediction failed"
  else
    .ok (forecastOf symbol days (((prep df).map (fun r => r.close)).getLastD 0)
      (((prep df).map (fun r => r.date)).getLastD 0)
      (rollout pc (sampleStdR ((prep df).map (fun r => r.daily_return)))
        (((prep df).map (fun r => r.close)).getLastD 0) days))

/-! ## Concrete inputs used by witnesses and counterexamples -/

/-- A benign constant trading day. -/
def cRow0 : CleanRow := ⟨"AAPL", 0, 100, 101, 99, 100, 1000⟩

/-- A one-row predictor input. -/
def prRow0 : PredRow := ⟨100, 0, 0⟩

/-- A three-row metrics-annotated series: daily returns (-2, 0, 2) have sample
standard deviation exactly 2, and the last close is 100. -/
def exC1_df : List PredRow := [⟨50, -2, 0⟩, ⟨60, 0, 1⟩, ⟨100, 2, 4⟩]

/-- A run whose (deterministic) model predicts 10 while the last close is 100:
the confidence half-width shrinks from step 1 to step 2. -/
noncomputable def exC1_res : PredictResult :=
  predict_next_prices true (fun _ => some 10) (fun l => l) exC1_df "AAPL" 2

/-- A model-call oracle whose first invocation succeeds and whose second raises. -/
def exC2_pc : ℕ → Option ℝ := fun i => if i = 1 then some 100 else none

/-- A run truncated by an in-loop prediction error after one step. -/
noncomputable def exC2_res : PredictResult :=
  predict_next_prices true exC2_pc (fun l => l) exC1_df "AAPL" 2

/-- A valid raw row. -/
def exC4_a : RawRow := ⟨"AAPL", 1, some 10, some 12, some 9, some 11, some 100⟩

/-- A later-positioned duplicate of `exC4_a`'s key with differing close and
non-positive volume. -/
def exC4_b : RawRow := ⟨"AAPL", 1, some 10, some 12, some 9, some 20, some 0⟩

/-- Two all-valid raw rows sharing a key, the later with a different close. -/
def exC4_c : RawRow := ⟨"AAPL", 1, some 10, some 12, some 9, some 11, some 100⟩

/-- The later-positioned valid duplicate of `exC4_c`. -/
def exC4_d : RawRow := ⟨"AAPL", 1, some 10, some 12, some 9, some 20, some 100⟩

/-- A row satisfying high ≥ low but violating high ≥ max(open, close):
high = 50 while open = 100 and close = 90. -/
def exC9_r : RawRow := ⟨"AAPL", 1, some 100, some 50, some 40, some 90, some 10⟩

/-- A second trading day, for the no-look-ahead witness. -/
def exC8_b : CleanRow := ⟨"AAPL", 1, 100, 102, 98, 101, 500⟩

/-- An alternative second trading day differing from `exC8_b` in every price. -/
def exC8_c : CleanRow := ⟨"AAPL", 1, 50, 55, 45, 50, 77⟩

/-! ## Helper lemmas -/

theorem roundMonoR {x y : ℝ} (h : x ≤ y) : round x ≤ round y := by
  rw [round_eq, round_eq]
  exact Int.floor_mono (by linarith)

theorem round2R_mono {x y : ℝ} (h : x ≤ y) : round2R x ≤ round2R y := by
  unfold round2R
  have h1 : round (x * 100) ≤ round (y * 100) := roundMonoR (by linarith)
  have h2 : ((round (x * 100) : ℤ) : ℝ) ≤ ((round (y * 100) : ℤ) : ℝ) :=
    Int.cast_le.2 h1
  linarith

theorem round2R_intval (x : ℝ) (n : ℤ) (h : x * 100 = (n : ℝ)) :
    round2R x = (n : ℝ) / 100 := by
  unfold round2R
  rw [h, round_intCast]

theorem round2R_le_add (x : ℝ) : round2R x ≤ x + 1 / 200 := by
  unfold round2R
  have h := abs_le.1 (abs_sub_round (x * 100))
  have h2 : ((round (x * 100) : ℤ) : ℝ) ≤ x * 100 + 1 / 2 := by linarith [h.1]
  linarith

theorem round2R_zero : round2R 0 = 0 := by
  have := round2R_intval 0 0 (by norm_num)
  simpa using this

theorem round2R_nonneg {x : ℝ} (h : 0 ≤ x) : 0 ≤ round2R x := by
  have := round2R_mono h
  rw [round2R_zero] at this
  exact this

theorem round2R_le_100 {x : ℝ} (h : x ≤ 100) : round2R x ≤ 100 := by
  have h1 : round2R x ≤ round2R 100 := round2R_mono h
  have h2 : round2R 100 = 100 := by
    rw [round2R_intval 100 10000 (by norm_num)]
    norm_num
  linarith

theorem getD_of_forall_mem {α : Type} {P : α → Prop} {l : List α} {d : α}
    (hl : ∀ x ∈ l, P x) (hd : P d) (i : ℕ) : P (l.getD i d) := by
  rw [List.getD_eq_getElem?_getD]
  rcases h : l[i]? with _ | x
  · simpa using hd
  · simpa using hl x (List.getElem?_mem h)

/-! ## Claim C7 -/

/-- Claim C7: every volatility value produced by the Metrics Calculator lies in
`[0, 100]`: the trailing 30-period standard deviation of daily returns
(minimum period 5) is rescaled by `/5·100`, clamped to `[0, 100]` and rounded,
and any NaN from insufficient history becomes 0 in the final output. -/
theorem C7_volatility_bounded (ps : List CleanRow) (i : ℕ) :
    0 ≤ (calculate_all_metrics ps).volatility.getD i 0 ∧
      (calculate_all_metrics ps).volatility.getD i 0 ≤ 100 := by
  have key : ∀ x ∈ (volatility_col ps).map (fun o => o.getD 0), 0 ≤ x ∧ x ≤ 100 := by
    intro x hx
    rcases List.mem_map.1 hx with ⟨o, ho, rfl⟩
    rcases List.mem_map.1 ho with ⟨o', _, rfl⟩
    cases o' with
    | none => simp
    | some s =>
      simp only [Option.map_some', Option.getD_some]
      constructor
      · exact round2R_nonneg (le_min (le_max_right _ _) (by norm_num))
      · exact round2R_le_100 (min_le_right _ _)
  show (0 ≤ (calculate_all_metrics ps).volatility.getD i 0 ∧
      (calculate_all_metrics ps).volatility.getD i 0 ≤ 100)
  exact getD_of_forall_mem key (by norm_num) i

/-! ## Claim C5 -/

/-- Claim C5: `train_model` fails with the `InsufficientData` error record
(carrying the symbol) and persists nothing when the input has fewer than 50
rows; it likewise fails (with the `Insufficient samples` record) when fewer
than 30 usable samples remain after feature/target construction; with 50 or
more rows it is never rejected by the raw-row threshold. -/
theorem C5_train_model_thresholds (prep : List CleanRow → List CleanRow)
    (df : List CleanRow) (symbol : String) :
    (df.length < 50 →
      train_model prep df symbol = (.insufficientData symbol, [])) ∧
    (50 ≤ df.length → (prepare_training_data (prep df)).length < 30 →
      train_model prep df symbol = (.insufficientSamples symbol, [])) ∧
    (50 ≤ df.length →
      ∀ s, (train_model prep df symbol).1 ≠ TrainResult.insufficientData s) := by
  refine ⟨?_, ?_, ?_⟩
  · intro h
    simp [train_model, h]
  · intro h hs
    rw [train_model, if_neg (by omega)]
    simp [hs]
  · intro h s
    rw [train_model, if_neg (by omega)]
    by_cases hs : (prepare_training_data (prep df)).length < 30
    · simp [hs]
    · simp [hs]

/-- Witness for C5: exactly 49 rows fail with `InsufficientData` and no model
is saved; a feature pipeline leaving fewer than 30 samples fails with the
second error kind; 50 rows pass the raw threshold. -/
theorem C5_train_model_thresholds_witness :
    ((List.replicate 49 cRow0).length < 50 ∧
      train_model id (List.replicate 49 cRow0) "AAPL" =
        (.insufficientData "AAPL", [])) ∧
    (50 ≤ (List.replicate 50 cRow0).length ∧
      (prepare_training_data ((fun _ => []) (List.replicate 50 cRow0))).length < 30 ∧
      train_model (fun _ => []) (List.replicate 50 cRow0) "AAPL" =
        (.insufficientSamples "AAPL", [])) ∧
    (∀ s, (train_model id (List.replicate 50 cRow0) "AAPL").1 ≠
      TrainResult.insufficientData s) := by
  refine ⟨⟨by decide, ?_⟩, ⟨by decide, by decide, ?_⟩, ?_⟩
  · exact (C5_train_model_thresholds id _ "AAPL").1 (by decide)
  · exact (C5_train_model_thresholds (fun _ => []) _ "AAPL").2.1 (by decide) (by decide)
  · exact (C5_train_model_thresholds id _ "AAPL").2.2 (by decide)

/-! ## Claim C6 -/

/-- Claim C6: when no trained model exists the predictor returns the
`ModelNotFound` error — for every input, oracle and feature pipeline, so no
partial forecast is produced and the model check precedes all other work; an
empty input series yields the `NoData` error, and an empty engineered feature
frame yields the `FeaturePreparationFailed` error. -/
theorem C6_predict_failure_modes (modelLoaded : Bool) (pc : ℕ → Option ℝ)
    (prep : List PredRow → List PredRow) (df : List PredRow)
    (symbol : String) (days : ℕ) :
    (modelLoaded = false →
      predict_next_prices modelLoaded pc prep df symbol days =
        .err ("No trained model found for " ++ symbol)) ∧
    (df = [] →
      predict_next_prices true pc prep df symbol days =
        .err "No data available for prediction") ∧
    (df ≠ [] → prep df = [] →
      predict_next_prices true pc prep df symbol days =
        .err "Feature preparation failed") := by
  refine ⟨?_, ?_, ?_⟩
  · intro h
    subst h
    simp [predict_next_prices]
  · intro h
    subst h
    simp [predict_next_prices]
  · intro h hp
    rw [predict_next_prices]
    simp [List.isEmpty_eq_false.2 h, hp]

/-- Witness for C6: a missing model yields `ModelNotFound` on a 7-day request,
an empty series yields `NoData`, and an emptying feature pipeline yields
`FeaturePreparationFailed`. -/
theorem C6_predict_failure_modes_witness :
    (false = false ∧
      predict_next_prices false (fun _ => none) (fun l => l) [prRow0] "AAPL" 7 =
        .err ("No trained model found for " ++ "AAPL")) ∧
    (([] : List PredRow) = [] ∧
      predict_next_prices true (fun _ => none) (fun l => l) [] "AAPL" 7 =
        .err "No data available for prediction") ∧
    ([prRow0] ≠ [] ∧ (fun _ => ([] : List PredRow)) [prRow0] = [] ∧
      predict_next_prices true (fun _ => none) (fun _ => []) [prRow0] "AAPL" 7 =
        .err "Feature preparation failed") := by
  refine ⟨⟨rfl, ?_⟩, ⟨rfl, ?_⟩, ⟨by simp, rfl, ?_⟩⟩
  · exact (C6_predict_failure_modes false (fun _ => none) (fun l => l)
      [prRow0] "AAPL" 7).1 rfl
  · exact (C6_predict_failure_modes true (fun _ => none) (fun l => l)
      [] "AAPL" 7).2.1 rfl
  · exact (C6_predict_failure_modes true (fun _ => none) (fun _ => [])
      [prRow0] "AAPL" 7).2.2 (by simp) rfl

/-! ## Rollout lemmas -/

theorem rolloutGo_lengths (pc : ℕ → Option ℝ) (σ : ℝ) (fuel i : ℕ) (cp : ℝ) :
    (rolloutGo pc σ fuel i cp).2.1.length = (rolloutGo pc σ fuel i cp).1.length ∧
    (rolloutGo pc σ fuel i cp).2.2.length = (rolloutGo pc σ fuel i cp).1.length ∧
    (rolloutGo pc σ fuel i cp).1.length ≤ fuel := by
  induction fuel generalizing i cp with
  | zero => simp [rolloutGo]
  | succ n ih =>
    cases h : pc i with
    | none => simp [rolloutGo, h]
    | some p =>
      obtain ⟨h1, h2, h3⟩ := ih (i + 1) p
      simp only [rolloutGo, h, List.length_cons]
      exact ⟨by rw [h1], by rw [h2], by omega⟩

theorem rolloutGo_length_of_some (pc : ℕ → Option ℝ) (σ : ℝ) (fuel i : ℕ) (cp : ℝ)
    (h : ∀ j, i ≤ j → j < i + fuel → (pc j).isSome = true) :
    (rolloutGo pc σ fuel i cp).1.length = fuel := by
  induction fuel generalizing i cp with
  | zero => simp [rolloutGo]
  | succ n ih =>
    have hi : (pc i).isSome = true := h i le_rfl (by omega)
    rcases hp : pc i with _ | p
    · rw [hp] at hi
      simp at hi
    · simp only [rolloutGo, hp, List.length_cons]
      rw [ih (i + 1) p (fun j hj1 hj2 => h j (by omega) (by omega))]

theorem tradingDates_length (cur n : ℕ) : (tradingDates cur n).length = n := by
  induction n generalizing cur with
  | zero => rfl
  | succ m ih => simp [tradingDates, ih]

theorem rolloutGo_const_preds (p σ : ℝ) (fuel i : ℕ) (cp : ℝ) :
    (rolloutGo (fun _ => some p) σ fuel i cp).1 = List.replicate fuel (round2R p) := by
  induction fuel generalizing i cp with
  | zero => simp [rolloutGo]
  | succ n ih => simp [rolloutGo, ih, List.replicate_succ]

theorem rolloutGo_const_uppers (p σ : ℝ) (fuel : ℕ) (cp : ℝ) (i j : ℕ) (hj : j < fuel) :
    (rolloutGo (fun _ => some p) σ fuel i cp).2.2.getD j 0 =
      round2R (p + 1.96 * (Real.sqrt ((i + j : ℕ) : ℝ) * (σ / 100) *
        (if j = 0 then cp else p))) := by
  induction fuel generalizing i cp j with
  | zero => omega
  | succ n ih =>
    cases j with
    | zero =>
      simp [rolloutGo]
    | succ k =>
      have h2 := ih p (i + 1) k (by omega)
      simp only [rolloutGo, List.getD_cons_succ]
      rw [h2]
      have harg : (i + 1 + k : ℕ) = (i + (k + 1) : ℕ) := by omega
      rw [harg]
      simp

theorem getD_replicate_lt {α : Type} (a d : α) {n j : ℕ} (h : j < n) :
    (List.replicate n a).getD j d = a := by
  induction n generalizing j with
  | zero => omega
  | succ m ih =>
    cases j with
    | zero => rfl
    | succ k => simpa [List.replicate_succ] using ih (by omega)

theorem getLastD_replicate {α : Type} (a d : α) {n : ℕ} (h : 1 ≤ n) :
    (List.replicate n a).getLastD d = a := by
  induction n with
  | zero => omega
  | succ m ih =>
    cases m with
    | zero => rfl
    | succ k => simpa [List.replicate_succ, List.getLastD] using ih (by omega)

theorem foldl_min_replicate (x : ℝ) (m : ℕ) : (List.replicate m x).foldl min x = x := by
  induction m with
  | zero => rfl
  | succ k ih => simpa [List.replicate_succ, min_self] using ih

theorem foldl_max_replicate (x : ℝ) (m : ℕ) : (List.replicate m x).foldl max x = x := by
  induction m with
  | zero => rfl
  | succ k ih => simpa [List.replicate_succ, max_self] using ih

theorem listMinD_replicate (x : ℝ) {n : ℕ} (h : 1 ≤ n) :
    listMinD (List.replicate n x) = x := by
  cases n with
  | zero => omega
  | succ m => simpa [List.replicate_succ, listMinD] using foldl_min_replicate x m

theorem listMaxD_replicate (x : ℝ) {n : ℕ} (h : 1 ≤ n) :
    listMaxD (List.replicate n x) = x := by
  cases n with
  | zero => omega
  | succ m => simpa [List.replicate_succ, listMaxD] using foldl_max_replicate x m

/-! ## Claim C2 -/

/-- Claim C2 (corrected): in every successful forecast the predictions,
confidence-lower and confidence-upper lists have equal length, between 1 and
the requested horizon, and equal to the horizon when no model call raises; the
dates list, however, always has length exactly `days`, even when an in-loop
prediction error truncates the other three. -/
theorem C2_amended_list_lengths (modelLoaded : Bool) (pc : ℕ → Option ℝ)
    (prep : List PredRow → List PredRow) (df : List PredRow)
    (symbol : String) (days : ℕ)
    (h : (predict_next_prices modelLoaded pc prep df symbol days).isOk = true) :
    (predict_next_prices modelLoaded pc prep df symbol days).getOk.confidence_lower.length =
      (predict_next_prices modelLoaded pc prep df symbol days).getOk.predictions.length ∧
    (predict_next_prices modelLoaded pc prep df symbol days).getOk.confidence_upper.length =
      (predict_next_prices modelLoaded pc prep df symbol days).getOk.predictions.length ∧
    1 ≤ (predict_next_prices modelLoaded pc prep df symbol days).getOk.predictions.length ∧
    (predict_next_prices modelLoaded pc prep df symbol days).getOk.predictions.length ≤ days ∧
    (predict_next_prices modelLoaded pc prep df symbol days).getOk.dates.length = days ∧
    ((∀ j, 1 ≤ j → j ≤ days → (pc j).isSome = true) →
      (predict_next_prices modelLoaded pc prep df symbol days).getOk.predictions.length = days) := by
  cases modelLoaded with
  | false => simp [predict_next_prices, PredictResult.isOk] at h
  | true =>
    by_cases hdf : df.isEmpty
    · rw [predict_next_prices, if_neg (by simp), if_pos hdf] at h
      simp [PredictResult.isOk] at h
    · by_cases hprep : (prep df).isEmpty
      · rw [predict_next_prices, if_neg (by simp), if_neg hdf, if_pos hprep] at h
        simp [PredictResult.isOk] at h
      · by_cases hroll : (rollout pc
            (sampleStdR ((prep df).map (fun r => r.daily_return)))
            (((prep df).map (fun r => r.close)).getLastD 0) days).1.isEmpty
        · rw [predict_next_prices, if_neg (by simp), if_neg hdf, if_neg hprep,
            if_pos hroll] at h
          simp [PredictResult.isOk] at h
        · have hres : predict_next_prices true pc prep df symbol days =
              .ok (forecastOf symbol days
                (((prep df).map (fun r => r.close)).getLastD 0)
                (((prep df).map (fun r => r.date)).getLastD 0)
                (rollout pc (sampleStdR ((prep df).map (fun r => r.daily_return)))
                  (((prep df).map (fun r => r.close)).getLastD 0) days)) := by
            rw [predict_next_prices, if_neg (by simp), if_neg hdf, if_neg hprep,
              if_neg hroll]
          rw [hres]
          simp only [PredictResult.getOk, forecastOf, rollout]
          obtain ⟨h1, h2, h3⟩ := rolloutGo_lengths pc
            (sampleStdR ((prep df).map (fun r => r.daily_return)))
            days 1 (((prep df).map (fun r => r.close)).getLastD 0)
          have hne : (rolloutGo pc
              (sampleStdR ((prep df).map (fun r => r.daily_return))) days 1
              (((prep df).map (fun r => r.close)).getLastD 0)).1 ≠ [] := by
            intro hempty
            simp only [rollout] at hroll
            exact hroll (by rw [hempty]; rfl)
          refine ⟨h1, h2, ?_, h3, tradingDates_length _ _, ?_⟩
          · have := List.length_pos.2 hne
            omega
          · intro hall
            exact rolloutGo_length_of_some pc _ days 1 _
              (fun j hj1 hj2 => hall j hj1 (by omega))

/-- Witness for the amended C2: a fully successful two-day forecast has all
three value lists of length 2 and the dates list of length 2. -/
theorem C2_amended_list_lengths_witness :
    (predict_next_prices true (fun _ => some 5) (fun l => l) [prRow0] "AAPL" 2).isOk = true ∧
    (predict_next_prices true (fun _ => some 5) (fun l => l) [prRow0] "AAPL" 2).getOk.confidence_lower.length =
      (predict_next_prices true (fun _ => some 5) (fun l => l) [prRow0] "AAPL" 2).getOk.predictions.length ∧
    (predict_next_prices true (fun _ => some 5) (fun l => l) [prRow0] "AAPL" 2).getOk.dates.length = 2 ∧
    (predict_next_prices true (fun _ => some 5) (fun l => l) [prRow0] "AAPL" 2).getOk.predictions.length = 2 := by
  have hok : (predict_next_prices true (fun _ => some 5)
      (fun l => l) [prRow0] "AAPL" 2).isOk = true := by
    simp [predict_next_prices, rollout, rolloutGo, PredictResult.isOk]
  have hmain := C2_amended_list_lengths true (fun _ => some 5)
    (fun l => l) [prRow0] "AAPL" 2 hok
  exact ⟨hok, hmain.1, hmain.2.2.2.2.1, hmain.2.2.2.2.2 (fun j _ _ => rfl)⟩

/-- Counterexample to C2 as stated: with a model call that succeeds at step 1
and raises at step 2, the returned forecast has one prediction but two dates —
the dates list is not truncated along with the other lists. -/
theorem C2_counterexample_dates_not_truncated :
    exC2_res.isOk = true ∧
    exC2_res.getOk.predictions.length = 1 ∧
    exC2_res.getOk.dates.length = 2 ∧
    exC2_res.getOk.dates.length ≠ exC2_res.getOk.predictions.length := by
  refine ⟨?_, ?_, ?_, ?_⟩ <;>
    simp [exC2_res, predict_next_prices, exC2_pc, exC1_df, rollout, rolloutGo,
      tradingDates, skipWeekend, PredictResult.isOk, PredictResult.getOk,
      forecastOf]

/-! ## Claim C10 -/

/-- Claim C10: the feature snapshot passed to the model is never reassigned in
the rollout loop, so a deterministic model (every call returning the same
price `p`) yields a successful forecast whose predictions are all equal —
`days` copies of `round(p, 2)` — and whose summary min, max and expected
price all coincide with that value. -/
theorem C10_identical_feature_vector_predictions (p : ℝ)
    (prep : List PredRow → List PredRow) (df : List PredRow)
    (symbol : String) (days : ℕ) (hdays : 1 ≤ days)
    (hdf : df.isEmpty = false) (hprep : (prep df).isEmpty = false) :
    (predict_next_prices true (fun _ => some p) prep df symbol days).isOk = true ∧
    (predict_next_prices true (fun _ => some p) prep df symbol days).getOk.predictions =
      List.replicate days (round2R p) ∧
    (predict_next_prices true (fun _ => some p) prep df symbol days).getOk.expected_price =
      round2R p ∧
    (predict_next_prices true (fun _ => some p) prep df symbol days).getOk.min_prediction =
      round2R p ∧
    (predict_next_prices true (fun _ => some p) prep df symbol days).getOk.max_prediction =
      round2R p := by
  have hpreds : (rollout (fun _ => some p)
      (sampleStdR ((prep df).map (fun r => r.daily_return)))
      (((prep df).map (fun r => r.close)).getLastD 0) days).1 =
      List.replicate days (round2R p) := rolloutGo_const_preds p _ days 1 _
  have hne : ¬((rollout (fun _ => some p)
      (sampleStdR ((prep df).map (fun r => r.daily_return)))
      (((prep df).map (fun r => r.close)).getLastD 0) days).1.isEmpty = true) := by
    rw [hpreds]
    cases days with
    | zero => omega
    | succ m => simp [List.replicate_succ]
  have hres : predict_next_prices true (fun _ => some p) prep df symbol days =
      .ok (forecastOf symbol days
        (((prep df).map (fun r => r.close)).getLastD 0)
        (((prep df).map (fun r => r.date)).getLastD 0)
        (rollout (fun _ => some p)
          (sampleStdR ((prep df).map (fun r => r.daily_return)))
          (((prep df).map (fun r => r.close)).getLastD 0) days)) := by
    rw [predict_next_prices, if_neg (by simp), if_neg (by simp [hdf]),
      if_neg (by simp [hprep]), if_neg hne]
  rw [hres]
  refine ⟨rfl, ?_, ?_, ?_, ?_⟩ <;> simp only [PredictResult.getOk, forecastOf]
  · exact hpreds
  · rw [hpreds]
    exact getLastD_replicate _ _ hdays
  · rw [hpreds]
    exact listMinD_replicate _ hdays
  · rw [hpreds]
    exact listMaxD_replicate _ hdays

/-- Witness for C10: a concrete one-row series and constant model price 7 over
a two-day horizon. -/
theorem C10_identical_feature_vector_predictions_witness :
    1 ≤ 2 ∧ ([prRow0] : List PredRow).isEmpty = false ∧
    (predict_next_prices true (fun _ => some 7) (fun l => l) [prRow0] "AAPL" 2).getOk.predictions =
      List.replicate 2 (round2R 7) ∧
    (predict_next_prices true (fun _ => some 7) (fun l => l) [prRow0] "AAPL" 2).getOk.min_prediction =
      round2R 7 ∧
    (predict_next_prices true (fun _ => some 7) (fun l => l) [prRow0] "AAPL" 2).getOk.max_prediction =
      round2R 7 := by
  have hmain := C10_identical_feature_vector_predictions 7 (fun l => l)
    [prRow0] "AAPL" 2 (by omega) rfl rfl
  exact ⟨by omega, rfl, hmain.2.1, hmain.2.2.2.1, hmain.2.2.2.2⟩

/-! ## Claim C1 -/

/-- Claim C1 (amended): for a deterministic model, positive daily-return
standard deviation and a nonnegative predicted price, the confidence
half-width `confidence_upper[i] - predictions[i]` is non-decreasing from the
second rollout step onward (list positions `i ≥ 1`); the step-1-to-step-2
comparison is excluded because step 1 scales its half-width by the last close
while all later steps scale by the model's predicted price. -/
theorem C1_amended_half_width_monotone_from_second_step (σ p lc : ℝ)
    (days i : ℕ) (hσ : 0 < σ) (hp : 0 ≤ p) (hi : 1 ≤ i)
    (hlen : i + 1 < (rollout (fun _ => some p) σ lc days).1.length) :
    (rollout (fun _ => some p) σ lc days).2.2.getD i 0 -
        (rollout (fun _ => some p) σ lc days).1.getD i 0 ≤
      (rollout (fun _ => some p) σ lc days).2.2.getD (i + 1) 0 -
        (rollout (fun _ => some p) σ lc days).1.getD (i + 1) 0 := by
  rw [rollout] at hlen ⊢
  rw [rolloutGo_const_preds, List.length_replicate] at hlen
  rw [rolloutGo_const_preds, rolloutGo_const_uppers p σ days lc 1 i (by omega),
    rolloutGo_const_uppers p σ days lc 1 (i + 1) (by omega),
    if_neg (by omega), if_neg (by omega),
    getD_replicate_lt _ _ (by omega : i < days),
    getD_replicate_lt _ _ (by omega : i + 1 < days)]
  apply sub_le_sub_right
  apply round2R_mono
  have hs : Real.sqrt ((1 + i : ℕ) : ℝ) ≤ Real.sqrt ((1 + (i + 1) : ℕ) : ℝ) :=
    Real.sqrt_le_sqrt (by push_cast; linarith)
  have h1 : Real.sqrt ((1 + i : ℕ) : ℝ) * (σ / 100) ≤
      Real.sqrt ((1 + (i + 1) : ℕ) : ℝ) * (σ / 100) :=
    mul_le_mul_of_nonneg_right hs (by positivity)
  have h2 : Real.sqrt ((1 + i : ℕ) : ℝ) * (σ / 100) * p ≤
      Real.sqrt ((1 + (i + 1) : ℕ) : ℝ) * (σ / 100) * p :=
    mul_le_mul_of_nonneg_right h1 hp
  linarith

/-- Witness for the amended C1: with σ = 2, predicted price 10, last close
100 and a 4-day horizon, the half-width grows from position 1 to position 2. -/
theorem C1_amended_half_width_monotone_witness :
    (0 : ℝ) < 2 ∧ (0 : ℝ) ≤ 10 ∧ 1 ≤ 1 ∧
    1 + 1 < (rollout (fun _ => some (10 : ℝ)) 2 100 4).1.length ∧
    (rollout (fun _ => some (10 : ℝ)) 2 100 4).2.2.getD 1 0 -
        (rollout (fun _ => some (10 : ℝ)) 2 100 4).1.getD 1 0 ≤
      (rollout (fun _ => some (10 : ℝ)) 2 100 4).2.2.getD (1 + 1) 0 -
        (rollout (fun _ => some (10 : ℝ)) 2 100 4).1.getD (1 + 1) 0 := by
  have hlen : 1 + 1 < (rollout (fun _ => some (10 : ℝ)) 2 100 4).1.length := by
    rw [rollout, rolloutGo_const_preds, List.length_replicate]
    omega
  exact ⟨by norm_num, by norm_num, le_refl 1, hlen,
    C1_amended_half_width_monotone_from_second_step 2 10 100 4 1
      (by norm_num) (by norm_num) le_rfl hlen⟩

/-- Counterexample to C1 as stated: a successful forecast with daily-return
standard deviation 2 > 0, last close 100 and a model predicting 10 has a
strictly smaller confidence half-width at step 2 than at step 1 — the band
narrows because step 1 scales by the last close (100) while step 2 scales by
the predicted price (10). -/
theorem C1_counterexample_half_width_shrinks :
    0 < sampleStdR (exC1_df.map (fun r => r.daily_return)) ∧
    exC1_res.isOk = true ∧
    exC1_res.getOk.confidence_upper.getD 1 0 - exC1_res.getOk.predictions.getD 1 0 <
      exC1_res.getOk.confidence_upper.getD 0 0 - exC1_res.getOk.predictions.getD 0 0 := by
  have hvar : sampleVarR [(-2 : ℝ), 0, 2] = 4 := by
    simp only [sampleVarR, List.map_cons, List.map_nil, List.sum_cons, List.sum_nil,
      List.length_cons, List.length_nil]
    norm_num
  have hstdlist : sampleStdR [(-2 : ℝ), 0, 2] = 2 := by
    rw [sampleStdR, hvar, show (4 : ℝ) = 2 ^ 2 by norm_num]
    exact Real.sqrt_sq (by norm_num)
  have hσpos : 0 < sampleStdR (exC1_df.map (fun r => r.daily_return)) := by
    have : sampleStdR (exC1_df.map (fun r => r.daily_return)) = 2 := hstdlist
    rw [this]
    norm_num
  have hres : exC1_res =
      .ok (forecastOf "AAPL" 2 100 4 (rollout (fun _ => some 10) 2 100 2)) := by
    rw [exC1_res, predict_next_prices, if_neg (by simp), if_neg (by simp [exC1_df]),
      if_neg (by simp [exC1_df]),
      if_neg (by rw [rollout, rolloutGo_const_preds]; simp)]
    show PredictResult.ok (forecastOf "AAPL" 2 100 4
      (rollout (fun _ => some 10) (sampleStdR [(-2 : ℝ), 0, 2]) 100 2)) = _
    rw [hstdlist]
  have h1392 : round2R (13.92 : ℝ) = 13.92 := by
    rw [round2R_intval 13.92 1392 (by norm_num)]
    norm_num
  have hr10 : round2R (10 : ℝ) = 10 := by
    rw [round2R_intval 10 1000 (by norm_num)]
    norm_num
  have hp0 : (rollout (fun _ => some (10 : ℝ)) 2 100 2).1.getD 0 0 = 10 := by
    rw [rollout, rolloutGo_const_preds, getD_replicate_lt _ _ (by omega : 0 < 2), hr10]
  have hp1 : (rollout (fun _ => some (10 : ℝ)) 2 100 2).1.getD 1 0 = 10 := by
    rw [rollout, rolloutGo_const_preds, getD_replicate_lt _ _ (by omega : 1 < 2), hr10]
  have hu0 : (rollout (fun _ => some (10 : ℝ)) 2 100 2).2.2.getD 0 0 = 13.92 := by
    rw [rollout, rolloutGo_const_uppers 10 2 2 100 1 0 (by omega), if_pos rfl]
    rw [show ((1 + 0 : ℕ) : ℝ) = 1 by norm_num, Real.sqrt_one]
    rw [show (10 : ℝ) + 1.96 * (1 * (2 / 100) * 100) = 13.92 by norm_num]
    exact h1392
  have hu1 : (rollout (fun _ => some (10 : ℝ)) 2 100 2).2.2.getD 1 0 =
      round2R (10 + 1.96 * (Real.sqrt 2 * (2 / 100) * 10)) := by
    rw [rollout, rolloutGo_const_uppers 10 2 2 100 1 1 (by omega), if_neg (by omega)]
    norm_num
  have hs2 : Real.sqrt 2 < 1.5 := (Real.sqrt_lt' (by norm_num)).2 (by norm_num)
  have hs2n : (0 : ℝ) ≤ Real.sqrt 2 := Real.sqrt_nonneg 2
  have hub : (rollout (fun _ => some (10 : ℝ)) 2 100 2).2.2.getD 1 0 ≤
      10 + 1.96 * (Real.sqrt 2 * (2 / 100) * 10) + 1 / 200 := by
    rw [hu1]
    exact round2R_le_add _
  refine ⟨hσpos, ?_, ?_⟩
  · rw [hres]
    rfl
  · rw [hres]
    simp only [PredictResult.getOk, forecastOf]
    rw [hp0, hp1, hu0]
    nlinarith [hub, hs2, hs2n]

/-! ## Series Cleaner lemmas -/

theorem dropMissing_eq_filter (df : List RawRow) :
    dropMissing df = df.filter hasEssential := by
  simp only [dropMissing, List.filter_filter]
  apply List.filter_congr
  intro r _
  simp only [hasEssential]
  cases r.open_.isSome <;> cases r.high.isSome <;> cases r.low.isSome <;>
    cases r.close.isSome <;> cases r.volume.isSome <;> rfl

theorem dropMissing_eq_self (df : List RawRow)
    (h : ∀ r ∈ df, hasEssential r = true) : dropMissing df = df := by
  rw [dropMissing_eq_filter]
  exact List.filter_eq_self.2 h

theorem dedup_sublist (l : List RawRow) :
    (dropDuplicatesKeepLast l).Sublist l := by
  induction l with
  | nil => simp [dropDuplicatesKeepLast]
  | cons r rest ih =>
    simp only [dropDuplicatesKeepLast]
    split
    · exact ih.cons r
    · exact ih.cons₂ r

theorem dedup_pairwise (l : List RawRow) :
    (dropDuplicatesKeepLast l).Pairwise (fun a b => rowKey a ≠ rowKey b) := by
  induction l with
  | nil => simp [dropDuplicatesKeepLast]
  | cons r rest ih =>
    simp only [dropDuplicatesKeepLast]
    split
    · exact ih
    · rename_i hdup
      refine List.pairwise_cons.2 ⟨fun s hs he => ?_, ih⟩
      exact hdup (List.any_eq_true.2 ⟨s, (dedup_sublist rest).subset hs, by simp [he]⟩)

theorem dedup_eq_self {l : List RawRow}
    (h : l.Pairwise (fun a b => rowKey a ≠ rowKey b)) :
    dropDuplicatesKeepLast l = l := by
  induction l with
  | nil => rfl
  | cons r rest ih =>
    obtain ⟨hhead, htail⟩ := List.pairwise_cons.1 h
    simp only [dropDuplicatesKeepLast]
    rw [if_neg, ih htail]
    intro hany
    obtain ⟨s, hs, he⟩ := List.any_eq_true.1 hany
    have he2 : rowKey s = rowKey r := by simpa using he
    exact hhead s hs he2.symm

theorem mem_dedup_of_no_later (a b : List RawRow) (x : RawRow)
    (h : ∀ s ∈ b, rowKey s ≠ rowKey x) :
    x ∈ dropDuplicatesKeepLast (a ++ x :: b) := by
  induction a with
  | nil =>
    rw [List.nil_append]
    simp only [dropDuplicatesKeepLast]
    rw [if_neg]
    · exact List.mem_cons_self x _
    · intro hany
      obtain ⟨s, hs, he⟩ := List.any_eq_true.1 hany
      exact h s hs (by simpa using he)
  | cons y a' ih =>
    rw [List.cons_append]
    simp only [dropDuplicatesKeepLast]
    split
    · exact ih
    · exact List.mem_cons_of_mem y ih

theorem getLast?_cons_of_ne {α : Type} (a : α) {t : List α} (h : t ≠ []) :
    (a :: t).getLast? = t.getLast? := by
  cases t with
  | nil => exact absurd rfl h
  | cons b u => rw [List.getLast?_cons_cons]

theorem dedup_filter_key (l : List RawRow) (k : ℕ × String) :
    (dropDuplicatesKeepLast l).filter (fun r => decide (rowKey r = k)) =
      ((l.filter (fun r => decide (rowKey r = k))).getLast?).toList := by
  induction l with
  | nil => rfl
  | cons r rest ih =>
    by_cases hdup : rest.any (fun s => decide (rowKey s = rowKey r)) = true
    · simp only [dropDuplicatesKeepLast]
      rw [if_pos hdup, ih]
      by_cases hk : rowKey r = k
      · obtain ⟨s, hs, he⟩ := List.any_eq_true.1 hdup
        have hsk : rowKey s = k := by
          rw [← hk]
          simpa using he
        have hne : rest.filter (fun x => decide (rowKey x = k)) ≠ [] :=
          List.ne_nil_of_mem (List.mem_filter.2 ⟨hs, by simp [hsk]⟩)
        rw [List.filter_cons_of_pos (by simp [hk]), getLast?_cons_of_ne r hne]
      · rw [List.filter_cons_of_neg (by simp [hk])]
    · simp only [dropDuplicatesKeepLast]
      rw [if_neg hdup]
      by_cases hk : rowKey r = k
      · have hnone : rest.filter (fun x => decide (rowKey x = k)) = [] := by
          rw [List.filter_eq_nil_iff]
          intro s hs
          simp only [decide_eq_true_eq]
          intro he
          exact hdup (List.any_eq_true.2 ⟨s, hs, by simp [he, hk]⟩)
        rw [List.filter_cons_of_pos (by simp [hk]),
          List.filter_cons_of_pos (by simp [hk]), ih, hnone]
        rfl
      · rw [List.filter_cons_of_neg (by simp [hk]),
          List.filter_cons_of_neg (by simp [hk])]
        exact ih

theorem sortByDate_perm (l : List RawRow) : (sortByDate l).Perm l :=
  List.perm_insertionSort dateLE l

theorem sortByDate_sorted (l : List RawRow) : List.Sorted dateLE (sortByDate l) :=
  List.sorted_insertionSort dateLE l

theorem ffill_eq_self {l : List RawRow} (h : ∀ r ∈ l, hasEssential r = true) :
    ∀ a b c d, ffillRows a b c d l = l := by
  induction l with
  | nil => intro a b c d; rfl
  | cons r rest ih =>
    intro a b c d
    have hr := h r (List.mem_cons_self r rest)
    simp only [hasEssential, Bool.and_eq_true] at hr
    obtain ⟨⟨⟨⟨ho, hh⟩, hl⟩, hc⟩, _⟩ := hr
    rcases Option.isSome_iff_exists.1 ho with ⟨vo, hvo⟩
    rcases Option.isSome_iff_exists.1 hh with ⟨vh, hvh⟩
    rcases Option.isSome_iff_exists.1 hl with ⟨vl, hvl⟩
    rcases Option.isSome_iff_exists.1 hc with ⟨vc, hvc⟩
    simp only [ffillRows, hvo, hvh, hvl, hvc]
    rw [ih (fun s hs => h s (List.mem_cons_of_mem r hs)) (some vo) (some vh)
      (some vl) (some vc)]
    cases r
    simp_all

theorem clean_eq_stages (df : List RawRow) :
    clean_stock_data df =
      filterHighLow (filterVolume (sortByDate (dropDuplicatesKeepLast (dropMissing df)))) := by
  rw [clean_stock_data]
  apply ffill_eq_self
  intro r hr
  have h1 : r ∈ filterVolume (sortByDate (dropDuplicatesKeepLast (dropMissing df))) :=
    List.mem_of_mem_filter hr
  have h2 : r ∈ sortByDate (dropDuplicatesKeepLast (dropMissing df)) :=
    List.mem_of_mem_filter h1
  have h3 : r ∈ dropDuplicatesKeepLast (dropMissing df) :=
    (sortByDate_perm _).mem_iff.1 h2
  have h4 : r ∈ dropMissing df := (dedup_sublist _).subset h3
  rw [dropMissing_eq_filter] at h4
  exact List.of_mem_filter h4

theorem mem_clean_valid {df : List RawRow} {r : RawRow}
    (h : r ∈ clean_stock_data df) :
    hasEssential r = true ∧ volPos r = true ∧ highGeLow r = true := by
  rw [clean_eq_stages] at h
  have hhl : highGeLow r = true := List.of_mem_filter h
  have h1 : r ∈ filterVolume (sortByDate (dropDuplicatesKeepLast (dropMissing df))) :=
    List.mem_of_mem_filter h
  have hvol : volPos r = true := List.of_mem_filter h1
  have h2 := List.mem_of_mem_filter h1
  have h3 := (sortByDate_perm _).mem_iff.1 h2
  have h4 := (dedup_sublist _).subset h3
  rw [dropMissing_eq_filter] at h4
  exact ⟨List.of_mem_filter h4, hvol, hhl⟩

theorem clean_pairwise_keys (df : List RawRow) :
    (clean_stock_data df).Pairwise (fun a b => rowKey a ≠ rowKey b) := by
  rw [clean_eq_stages]
  have hd := dedup_pairwise (dropMissing df)
  have hs : (sortByDate (dropDuplicatesKeepLast (dropMissing df))).Pairwise
      (fun a b => rowKey a ≠ rowKey b) :=
    hd.perm (sortByDate_perm _).symm (fun hxy => hxy.symm)
  exact List.Pairwise.sublist ((List.filter_sublist _).trans (List.filter_sublist _)) hs

theorem clean_sorted (df : List RawRow) :
    List.Sorted dateLE (clean_stock_data df) := by
  rw [clean_eq_stages]
  exact ((sortByDate_sorted _).filter _).filter _

/-! ## Claim C3 -/

/-- Claim C3: the Series Cleaner is idempotent — re-running
`clean_stock_data` on its own output (for any input: empty, null-laden,
duplicated or unsorted) returns that output unchanged. -/
theorem C3_clean_idempotent (df : List RawRow) :
    clean_stock_data (clean_stock_data df) = clean_stock_data df := by
  have h1 : dropMissing (clean_stock_data df) = clean_stock_data df :=
    dropMissing_eq_self _ (fun r hr => (mem_clean_valid hr).1)
  have h2 : dropDuplicatesKeepLast (clean_stock_data df) = clean_stock_data df :=
    dedup_eq_self (clean_pairwise_keys df)
  have h3 : sortByDate (clean_stock_data df) = clean_stock_data df :=
    (clean_sorted df).insertionSort_eq
  have h4 : filterVolume (clean_stock_data df) = clean_stock_data df := by
    rw [filterVolume]
    exact List.filter_eq_self.2 (fun r hr => (mem_clean_valid hr).2.1)
  have h5 : filterHighLow (clean_stock_data df) = clean_stock_data df := by
    rw [filterHighLow]
    exact List.filter_eq_self.2 (fun r hr => (mem_clean_valid hr).2.2)
  have h6 : ffillRows none none none none (clean_stock_data df) = clean_stock_data df :=
    ffill_eq_self (fun r hr => (mem_clean_valid hr).1) none none none none
  conv_lhs => rw [clean_stock_data]
  rw [h1, h2, h3, h4, h5, h6]

/-! ## Claim C4 -/

/-- Claim C4 (amended): for an input all of whose rows pass the validity
filters (no missing cells, positive volume, high ≥ low) and in which exactly
two rows carry a given `(date, symbol)` key, cleaning outputs exactly one row
for that key — the later-positioned one; without the validity restriction the
original claim fails (see the counterexample). -/
theorem C4_amended_dedup_keeps_last_valid (xs : List RawRow) (k : ℕ × String)
    (r1 r2 : RawRow)
    (hall : ∀ r ∈ xs, hasEssential r = true ∧ volPos r = true ∧ highGeLow r = true)
    (hfk : xs.filter (fun r => decide (rowKey r = k)) = [r1, r2]) :
    (clean_stock_data xs).filter (fun r => decide (rowKey r = k)) = [r2] := by
  have hr2 : r2 ∈ xs := List.mem_of_mem_filter (p := fun r => decide (rowKey r = k))
    (by rw [hfk]; simp)
  have h2v := hall r2 hr2
  rw [clean_eq_stages, dropMissing_eq_self xs (fun r hr => (hall r hr).1),
    filterHighLow, filterVolume]
  rw [List.filter_comm, List.filter_comm (fun r => decide (rowKey r = k)) volPos]
  have hdk : (dropDuplicatesKeepLast xs).filter (fun r => decide (rowKey r = k)) =
      [r2] := by
    rw [dedup_filter_key, hfk]
    rfl
  have hperm := (sortByDate_perm (dropDuplicatesKeepLast xs)).filter
    (fun r => decide (rowKey r = k))
  rw [hdk] at hperm
  rw [List.perm_singleton.1 hperm]
  rw [List.filter_cons_of_pos h2v.2.1, List.filter_nil,
    List.filter_cons_of_pos h2v.2.2, List.filter_nil]

/-- Witness for the amended C4: two valid rows sharing the key `(1, "AAPL")`
with differing closes; cleaning keeps exactly the later one. -/
theorem C4_amended_dedup_keeps_last_valid_witness :
    (∀ r ∈ [exC4_c, exC4_d],
      hasEssential r = true ∧ volPos r = true ∧ highGeLow r = true) ∧
    ([exC4_c, exC4_d].filter (fun r => decide (rowKey r = (1, "AAPL"))) =
      [exC4_c, exC4_d]) ∧
    ((clean_stock_data [exC4_c, exC4_d]).filter
      (fun r => decide (rowKey r = (1, "AAPL"))) = [exC4_d]) := by
  refine ⟨by decide, by decide, ?_⟩
  exact C4_amended_dedup_keeps_last_valid [exC4_c, exC4_d] (1, "AAPL")
    exC4_c exC4_d (by decide) (by decide)

/-- Counterexample to C4 as stated: two rows with the same key and differing
fields where the later one has zero volume — the cleaner outputs no row at all
for that key (dedup keeps the later row, which the volume filter then drops),
not one row with the later row's fields. -/
theorem C4_counterexample_invalid_later_duplicate :
    rowKey exC4_a = rowKey exC4_b ∧ exC4_a ≠ exC4_b ∧
    clean_stock_data [exC4_a, exC4_b] = [] := by
  refine ⟨rfl, by decide, by decide⟩

/-! ## Claim C9 -/

/-- Claim C9: the Cleaner's price-consistency filtering is exactly `high ≥ low`
(next to the missing-cell, duplicate-key and non-positive-volume removals):
every output row passes those three checks, and conversely every complete row
with positive volume and high ≥ low whose key has no later occurrence survives
— in particular a row with high < max(open, close) is not removed. -/
theorem C9_high_ge_low_is_only_price_filter (df l₁ l₂ : List RawRow) (r : RawRow) :
    (r ∈ clean_stock_data df →
      hasEssential r = true ∧ volPos r = true ∧ highGeLow r = true) ∧
    (hasEssential r = true → volPos r = true → highGeLow r = true →
      (∀ s ∈ l₂, rowKey s ≠ rowKey r) →
      r ∈ clean_stock_data (l₁ ++ r :: l₂)) := by
  refine ⟨fun h => mem_clean_valid h, fun hess hvol hhl hkey => ?_⟩
  rw [clean_eq_stages, filterHighLow, filterVolume]
  refine List.mem_filter.2 ⟨List.mem_filter.2 ⟨?_, hvol⟩, hhl⟩
  apply (sortByDate_perm _).mem_iff.2
  rw [dropMissing_eq_filter, List.filter_append, List.filter_cons_of_pos hess]
  apply mem_dedup_of_no_later
  intro s hs
  exact hkey s (List.mem_of_mem_filter hs)

/-- Witness for C9: a complete, positive-volume row with high = 50 ≥ low = 40
but high strictly below both open = 100 and close = 90 survives cleaning. -/
theorem C9_high_ge_low_is_only_price_filter_witness :
    hasEssential exC9_r = true ∧ volPos exC9_r = true ∧ highGeLow exC9_r = true ∧
    (∀ s ∈ ([] : List RawRow), rowKey s ≠ rowKey exC9_r) ∧
    exC9_r ∈ clean_stock_data ([] ++ exC9_r :: []) ∧
    exC9_r.high.getD 0 < max (exC9_r.open_.getD 0) (exC9_r.close.getD 0) := by
  refine ⟨by decide, by decide, by decide, by simp, ?_, by decide⟩
  exact (C9_high_ge_low_is_only_price_filter [] [] [] exC9_r).2
    (by decide) (by decide) (by decide) (by simp)

/-! ## Metrics no-look-ahead lemmas -/

theorem getElem?_of_take_eq {α : Type} {xs ys : List α} {i : ℕ}
    (h : xs.take (i + 1) = ys.take (i + 1)) : xs[i]? = ys[i]? := by
  have h1 : (xs.take (i + 1))[i]? = xs[i]? := by
    rw [List.getElem?_take, if_pos (Nat.lt_succ_self i)]
  have h2 : (ys.take (i + 1))[i]? = ys[i]? := by
    rw [List.getElem?_take, if_pos (Nat.lt_succ_self i)]
  rw [← h1, h, h2]

theorem windowSlice_eq_of_take_eq {α : Type} {xs ys : List α} (w : ℕ) {i : ℕ}
    (h : xs.take (i + 1) = ys.take (i + 1)) :
    windowSlice xs w i = windowSlice ys w i := by
  rw [windowSlice, windowSlice, h]

theorem getElem?_range_map {β : Type} (body : ℕ → β) (n i : ℕ) (hi : i < n) :
    ((List.range n).map body)[i]? = some (body i) := by
  rw [List.getElem?_map, List.getElem?_range hi, Option.map_some']

theorem map_take_eq_of_take_eq {α β : Type} (g : α → β) {xs ys : List α} {i : ℕ}
    (h : xs.take (i + 1) = ys.take (i + 1)) :
    (xs.map g).take (i + 1) = (ys.map g).take (i + 1) := by
  rw [← List.map_take, ← List.map_take, h]

theorem rollingApply_getElem?_congr {α β : Type} (f : List α → β) (w m : ℕ)
    {xs ys : List α} {i : ℕ} (hx : i < xs.length) (hy : i < ys.length)
    (h : xs.take (i + 1) = ys.take (i + 1)) :
    (rollingApply f w m xs)[i]? = (rollingApply f w m ys)[i]? := by
  rw [rollingApply, rollingApply, getElem?_range_map _ _ _ hx,
    getElem?_range_map _ _ _ hy, windowSlice_eq_of_take_eq w h]

theorem ma_col_getElem?_congr (w : ℕ) {xs ys : List CleanRow} {i : ℕ}
    (hx : i < xs.length) (hy : i < ys.length)
    (h : xs.take (i + 1) = ys.take (i + 1)) :
    (ma_col w xs)[i]? = (ma_col w ys)[i]? := by
  rw [ma_col, ma_col, List.getElem?_map, List.getElem?_map,
    rollingApply_getElem?_congr listMeanQ w 1 (by simpa using hx) (by simpa using hy)
      (map_take_eq_of_take_eq _ h)]

/-! ## Claim C8 -/

/-- Claim C8: no look-ahead — if two cleaned series agree on their first
`i + 1` rows then every column of `calculate_all_metrics` agrees at index `i`:
each derived value at `i` is a function of the rows at indices ≤ `i` only. -/
theorem C8_no_look_ahead (xs ys : List CleanRow) (i : ℕ)
    (hx : i < xs.length) (hy : i < ys.length)
    (h : xs.take (i + 1) = ys.take (i + 1)) :
    (calculate_all_metrics xs).rows[i]? = (calculate_all_metrics ys).rows[i]? ∧
    (calculate_all_metrics xs).daily_return[i]? =
      (calculate_all_metrics ys).daily_return[i]? ∧
    (calculate_all_metrics xs).ma_7[i]? = (calculate_all_metrics ys).ma_7[i]? ∧
    (calculate_all_metrics xs).ma_20[i]? = (calculate_all_metrics ys).ma_20[i]? ∧
    (calculate_all_metrics xs).high_52w[i]? = (calculate_all_metrics ys).high_52w[i]? ∧
    (calculate_all_metrics xs).low_52w[i]? = (calculate_all_metrics ys).low_52w[i]? ∧
    (calculate_all_metrics xs).volatility[i]? =
      (calculate_all_metrics ys).volatility[i]? ∧
    (calculate_all_metrics xs).momentum[i]? = (calculate_all_metrics ys).momentum[i]? ∧
    (calculate_all_metrics xs).trend_strength[i]? =
      (calculate_all_metrics ys).trend_strength[i]? := by
  have hrow : xs[i]? = ys[i]? := getElem?_of_take_eq h
  have hdr : (daily_return_col xs)[i]? = (daily_return_col ys)[i]? := by
    rw [daily_return_col, daily_return_col, List.getElem?_map, List.getElem?_map, hrow]
  have hdrtake : (daily_return_col xs).take (i + 1) =
      (daily_return_col ys).take (i + 1) := by
    rw [daily_return_col, daily_return_col]
    exact map_take_eq_of_take_eq _ h
  refine ⟨?_, ?_, ?_, ?_, ?_, ?_, ?_, ?_, ?_⟩
  · exact hrow
  · exact hdr
  · exact ma_col_getElem?_congr 7 hx hy h
  · exact ma_col_getElem?_congr 20 hx hy h
  · simp only [calculate_all_metrics]
    rw [high_52w_col, high_52w_col, List.getElem?_map, List.getElem?_map,
      rollingApply_getElem?_congr listMaxQ 252 1 (by simpa using hx)
        (by simpa using hy) (map_take_eq_of_take_eq _ h)]
  · simp only [calculate_all_metrics]
    rw [low_52w_col, low_52w_col, List.getElem?_map, List.getElem?_map,
      rollingApply_getElem?_congr listMinQ 252 1 (by simpa using hx)
        (by simpa using hy) (map_take_eq_of_take_eq _ h)]
  · simp only [calculate_all_metrics]
    rw [volatility_col, volatility_col, List.getElem?_map, List.getElem?_map,
      List.getElem?_map, List.getElem?_map,
      rollingApply_getElem?_congr sampleStdR 30 5
        (by simpa [daily_return_col] using hx) (by simpa [daily_return_col] using hy)
        (map_take_eq_of_take_eq _ hdrtake)]
  · simp only [calculate_all_metrics, momentum_col, List.getElem?_map,
      List.getElem?_range hx, List.getElem?_range hy, Option.map_some']
    rw [h]
  · simp only [calculate_all_metrics]
    have hma : (ma_col 20 xs).getD i 0 = (ma_col 20 ys).getD i 0 := by
      rw [List.getD_eq_getElem?_getD, List.getD_eq_getElem?_getD,
        ma_col_getElem?_congr 20 hx hy h]
    rw [trend_strength_col, trend_strength_col,
      getElem?_range_map _ _ _ hx, getElem?_range_map _ _ _ hy, h, hma]

/-- Witness for C8: two two-row series sharing the first row and differing in
every field of the second; all metrics columns agree at index 0. -/
theorem C8_no_look_ahead_witness :
    0 < ([cRow0, exC8_b] : List CleanRow).length ∧
    0 < ([cRow0, exC8_c] : List CleanRow).length ∧
    ([cRow0, exC8_b] : List CleanRow).take 1 = ([cRow0, exC8_c] : List CleanRow).take 1 ∧
    ((calculate_all_metrics [cRow0, exC8_b]).daily_return[0]? =
        (calculate_all_metrics [cRow0, exC8_c]).daily_return[0]? ∧
      (calculate_all_metrics [cRow0, exC8_b]).volatility[0]? =
        (calculate_all_metrics [cRow0, exC8_c]).volatility[0]? ∧
      (calculate_all_metrics [cRow0, exC8_b]).momentum[0]? =
        (calculate_all_metrics [cRow0, exC8_c]).momentum[0]? ∧
      (calculate_all_metrics [cRow0, exC8_b]).trend_strength[0]? =
        (calculate_all_metrics [cRow0, exC8_c]).trend_strength[0]?) := by
  have hmain := C8_no_look_ahead [cRow0, exC8_b] [cRow0, exC8_c] 0
    (by decide) (by decide) (by decide)
  exact ⟨by decide, by decide, by decide,
    hmain.2.1, hmain.2.2.2.2.2.2.1, hmain.2.2.2.2.2.2.2.1, hmain.2.2.2.2.2.2.2.2⟩
